import Mathlib

/-!
Shallow embedding of the Goita round engine (`goita_ai2/state.py`,
`goita_ai2/utils.py`, and the move dispatch of `goita_ai2/simulate.py`).

Python tiles are the strings "1".."9"; they are embedded as naturals.
Python's in-place mutators raise `ValueError` on an illegal move; each
mutator is embedded as a function returning the state together with
`Option String`: `none` means the call succeeded, `some msg` mirrors a
`raise ValueError(msg)` at the corresponding program point, and the state
component is the state as of that program point (the source performs all
validation before its first mutation, which the theorems below make
explicit).
-/

/-- The four seats "A".."D" of `state.py`. -/
inductive Player where
  | A
  | B
  | C
  | D
deriving DecidableEq, Repr

/-- A dictionary keyed by the four seats (`Dict[str, ...]` with keys "A".."D"). -/
structure SeatMap (α : Type) where
  A : α
  B : α
  C : α
  D : α
deriving DecidableEq, Repr

def SeatMap.get (m : SeatMap α) : Player → α
  | .A => m.A
  | .B => m.B
  | .C => m.C
  | .D => m.D

def SeatMap.set (m : SeatMap α) : Player → α → SeatMap α
  | .A, v => { m with A := v }
  | .B, v => { m with B := v }
  | .C, v => { m with C := v }
  | .D, v => { m with D := v }

/-- Cell for `team_score`: a dict with the two keys "AC" and "BD". -/
structure TeamScore where
  AC : Nat
  BD : Nat
deriving DecidableEq, Repr

/-- Implements `self.team_score[team] += score` for the two keys that occur. -/
def TeamScore.add (ts : TeamScore) (team : String) (score : Nat) : TeamScore :=
  if team = "AC" then { ts with AC := ts.AC + score }
  else if team = "BD" then { ts with BD := ts.BD + score }
  else ts

/-- The full mutable state of `GoitaState`. `phase` is the string
"receive" or "attack" exactly as in the source. -/
structure GoitaState where
  hands : SeatMap (List Nat)
  had_both_kings : SeatMap Bool
  face_down_hidden : SeatMap (List Nat)
  current_attack : Option Nat
  attacker : Option Player
  phase : String
  turn : Player
  last_block : Option Nat
  last_block_player : Option Player
  king_block_used : Nat
  finished : Bool
  winner : Option Player
  team_score : TeamScore
deriving DecidableEq, Repr

/-- Embeds `GoitaState.__init__(hands, dealer)`: copies the hands, computes
`had_both_kings`, and initialises every other field; no validation. -/
def GoitaState.init (hands : SeatMap (List Nat)) (dealer : Player) : GoitaState where
  hands := hands
  had_both_kings :=
    { A := (8 ∈ hands.A ∧ 9 ∈ hands.A : Bool)
      B := (8 ∈ hands.B ∧ 9 ∈ hands.B : Bool)
      C := (8 ∈ hands.C ∧ 9 ∈ hands.C : Bool)
      D := (8 ∈ hands.D ∧ 9 ∈ hands.D : Bool) }
  face_down_hidden := { A := [], B := [], C := [], D := [] }
  current_attack := none
  attacker := none
  phase := "attack"
  turn := dealer
  last_block := none
  last_block_player := none
  king_block_used := 0
  finished := false
  winner := none
  team_score := { AC := 0, BD := 0 }

/-- Base-value table `POINTS` (a dict keyed "1".."9"; totalised with 0
outside the table, where the Python dict lookup would raise `KeyError`). -/
def POINTS : Nat → Nat
  | 9 => 50
  | 8 => 50
  | 7 => 40
  | 6 => 40
  | 5 => 30
  | 4 => 30
  | 3 => 20
  | 2 => 20
  | 1 => 10
  | _ => 0

/-- Embeds `GoitaState.next_player`. -/
def next_player : Player → Player
  | .A => .B
  | .B => .C
  | .C => .D
  | .D => .A

/-- Embeds `GoitaState.can_receive(player, block)` (the `player` argument is
unused in the source as well). -/
def can_receive (st : GoitaState) (_player : Player) (block : Nat) : Bool :=
  match st.current_attack with
  | none => false
  | some attack =>
    if block = 8 ∨ block = 9 then decide ¬(attack = 1 ∨ attack = 2)
    else block = attack

/-- Embeds `GoitaState._can_attack_without_block(player, attack)`. -/
def can_attack_without_block (st : GoitaState) (player : Player) (attack : Nat) : Bool :=
  let hand := st.hands.get player
  if attack ∉ hand then false
  else if attack = 1 ∨ attack = 2 ∨ attack = 3 ∨ attack = 4 ∨ attack = 5 ∨ attack = 6 ∨ attack = 7 then
    true
  else if attack = 8 ∨ attack = 9 then
    let both_kings := st.had_both_kings.get player
    let already_king_used := st.king_block_used > 0
    let last_finish := hand.length = 1
    both_kings ∨ already_king_used ∨ last_finish
  else false

/-- Embeds `GoitaState._can_attack_with_block(player, block, attack)`. -/
def can_attack_with_block (st : GoitaState) (player : Player) (block : Nat) (attack : Nat) : Bool :=
  let hand := st.hands.get player
  if block ∉ hand ∨ attack ∉ hand then false
  else if block = attack ∧ hand.count block < 2 then false
  else if attack = 1 ∨ attack = 2 ∨ attack = 3 ∨ attack = 4 ∨ attack = 5 ∨ attack = 6 ∨ attack = 7 then
    true
  else if attack = 8 ∨ attack = 9 then
    let both_kings := st.had_both_kings.get player
    let already_king_used := st.king_block_used > 0
    let last_finish := hand.length = 2
    both_kings ∨ already_king_used ∨ last_finish
  else false

/-- Embeds `GoitaState.apply_receive(player, block)`. -/
def apply_receive (st : GoitaState) (player : Player) (block : Nat) : GoitaState × Option String :=
  if st.phase ≠ "receive" then (st, some "Receive is only allowed in receive phase")
  else if player ≠ st.turn then (st, some "It is not the player's turn")
  else if ¬ can_receive st player block then (st, some "player cannot receive with this block")
  else
    let hand := st.hands.get player
    if block ∉ hand then (st, some "player does not have block piece")
    else
      let hand := hand.erase block
      let kbu := if block = 8 ∨ block = 9 then st.king_block_used + 1 else st.king_block_used
      ({ st with
          hands := st.hands.set player hand
          king_block_used := kbu
          current_attack := none
          attacker := some player
          phase := "attack"
          turn := player }, none)

/-- Embeds `GoitaState.apply_pass(player)`. -/
def apply_pass (st : GoitaState) (player : Player) : GoitaState × Option String :=
  if st.phase ≠ "receive" then (st, some "Pass is only allowed in receive phase")
  else if player ≠ st.turn then (st, some "It is not the player's turn")
  else
    let next_p := next_player player
    let st1 := { st with turn := next_p }
    match st1.attacker with
    | none => (st1, none)
    | some atk =>
      if next_p ≠ atk then (st1, none)
      else ({ st1 with phase := "attack", turn := atk }, none)

/-- Embeds `GoitaState.calculate_score(player, attack)`. -/
def calculate_score (st : GoitaState) (player : Player) (attack : Nat) : Nat × String :=
  let base := POINTS attack
  let hidden := st.face_down_hidden.get player
  let base :=
    match hidden.getLast? with
    | some h => if (h = 8 ∧ attack = 9) ∨ (h = 9 ∧ attack = 8) then 100 else base
    | none => base
  let is_double := st.last_block_player = some player ∧ st.last_block = some attack
  let score := base * (if is_double then 2 else 1)
  let team : String := if player = .A ∨ player = .C then "AC" else "BD"
  (score, team)

/-- Embeds `GoitaState.finish_round(player, attack)`. -/
def finish_round (st : GoitaState) (player : Player) (attack : Nat) : GoitaState :=
  let st1 := { st with finished := true, winner := some player }
  let sc := calculate_score st1 player attack
  { st1 with team_score := st1.team_score.add sc.2 sc.1 }

/-- Embeds `GoitaState.apply_attack(player, attack)`. -/
def apply_attack (st : GoitaState) (player : Player) (attack : Nat) : GoitaState × Option String :=
  if st.phase ≠ "attack" then (st, some "Attack is only allowed in attack phase")
  else if player ≠ st.turn then (st, some "It is not the player's turn")
  else
    let hand := st.hands.get player
    if attack ∉ hand then (st, some "player does not have attack piece")
    else if ¬ can_attack_without_block st player attack then (st, some "player cannot attack in this state")
    else
      let hand := hand.erase attack
      let st1 :=
        { st with
            hands := st.hands.set player hand
            current_attack := some attack
            attacker := some player
            turn := next_player player
            phase := "receive" }
      if hand.length = 0 then (finish_round st1 player attack, none) else (st1, none)

/-- Embeds `GoitaState.apply_attack_after_block(player, block, attack)`. -/
def apply_attack_after_block (st : GoitaState) (player : Player) (block : Nat) (attack : Nat) :
    GoitaState × Option String :=
  if st.phase ≠ "attack" then (st, some "This attack requires attack phase")
  else if player ≠ st.turn then (st, some "It is not the player's turn")
  else
    let hand := st.hands.get player
    if block ∉ hand ∨ attack ∉ hand then (st, some "player does not have required pieces")
    else if ¬ can_attack_with_block st player block attack then (st, some "player cannot attack with this block and attack")
    else
      let hand1 := hand.erase block
      let st1 :=
        { st with
            hands := st.hands.set player hand1
            face_down_hidden := st.face_down_hidden.set player (st.face_down_hidden.get player ++ [block])
            last_block := some block
            last_block_player := some player }
      let hand2 := hand1.erase attack
      let st2 :=
        { st1 with
            hands := st1.hands.set player hand2
            current_attack := some attack
            attacker := some player
            turn := next_player player
            phase := "receive" }
      if hand2.length = 0 then (finish_round st2 player attack, none) else (st2, none)

/-- Computes `sorted(set(hand))`: the distinct ranks of a hand in ascending order. -/
def sortedSet (l : List Nat) : List Nat :=
  l.dedup.insertionSort (· ≤ ·)

/-- A move tuple `(action_type, block, attack)` as produced by
`legal_actions` and consumed by the dispatch in `simulate.py`. -/
abbrev GAction := String × Option Nat × Option Nat

/-- The `attack_after_block` enumeration shared by the first and last
branches of the attack phase of `legal_actions`. -/
def coverAttackMoves (st : GoitaState) (player : Player) (hand : List Nat) : List GAction :=
  (sortedSet hand).flatMap fun block =>
    (sortedSet hand).filterMap fun attack =>
      if block = attack ∧ hand.count block < 2 then none
      else if can_attack_with_block st player block attack then
        some ("attack_after_block", some block, some attack)
      else none

/-- Embeds `GoitaState.legal_actions(player)`. -/
def legal_actions (st : GoitaState) (player : Player) : List GAction :=
  if st.finished then []
  else
    let hand := st.hands.get player
    if st.phase = "receive" then
      let actions : List GAction := [("pass", none, none)]
      match st.current_attack with
      | none => actions
      | some _ =>
        actions ++ (sortedSet hand).filterMap fun block =>
          if can_receive st player block then some ("receive", some block, none) else none
    else if st.phase = "attack" then
      if player ≠ st.turn then []
      else if st.attacker = none ∧ st.current_attack = none then
        coverAttackMoves st player hand
      else if st.current_attack = none ∧ st.attacker = some player then
        (sortedSet hand).filterMap fun attack =>
          if can_attack_without_block st player attack then
            some ("attack", none, some attack)
          else none
      else
        coverAttackMoves st player hand
    else []

/-- The move dispatch of `simulate_random_game` in `simulate.py`:
routes an `(action_type, block, attack)` tuple to the four mutators. -/
def applyAction (st : GoitaState) (player : Player) (act : GAction) : GoitaState × Option String :=
  let (ty, b, a) := act
  if ty = "pass" then apply_pass st player
  else if ty = "receive" then
    match b with
    | none => (st, some "receive requires a block")
    | some bb => apply_receive st player bb
  else if ty = "attack" then
    match a with
    | none => (st, some "attack requires an attack")
    | some aa => apply_attack st player aa
  else if ty = "attack_after_block" then
    match b, a with
    | some bb, some aa => apply_attack_after_block st player bb aa
    | _, _ => (st, some "attack_after_block requires block and attack")
  else (st, some "unknown action type")

/-- Run a sequence of `(player, action)` pairs through `applyAction`,
reporting whether every call succeeded. -/
def applySeq (st : GoitaState) : List (Player × GAction) → GoitaState × Bool
  | [] => (st, true)
  | (p, a) :: rest =>
    let r := applyAction st p a
    match r.2 with
    | some _ => (r.1, false)
    | none => applySeq r.1 rest

/-- The fixed deck of `create_random_hands` in `utils.py`: one 9, one 8,
two 7s, two 6s, four each of 5/4/3/2, ten 1s. -/
def deckList : List Nat :=
  List.replicate 1 9 ++ List.replicate 1 8 ++ List.replicate 2 7 ++ List.replicate 2 6 ++
  List.replicate 4 5 ++ List.replicate 4 4 ++ List.replicate 4 3 ++ List.replicate 4 2 ++
  List.replicate 10 1

/-- A valid deal: 8 tiles per seat, and the four hands together are a
permutation of the fixed 32-tile deck. -/
def ValidDeal (hands : SeatMap (List Nat)) : Prop :=
  hands.A.length = 8 ∧ hands.B.length = 8 ∧ hands.C.length = 8 ∧ hands.D.length = 8 ∧
  (hands.A ++ hands.B ++ hands.C ++ hands.D).Perm deckList

instance : DecidablePred ValidDeal := fun _ => by
  unfold ValidDeal; infer_instance

/-- Rounds reachable from a valid deal by successful mutator calls. -/
inductive Reachable : GoitaState → Prop where
  | init (hands : SeatMap (List Nat)) (dealer : Player) (h : ValidDeal hands) :
      Reachable (GoitaState.init hands dealer)
  | step (st : GoitaState) (p : Player) (a : GAction) (hr : Reachable st)
      (hok : (applyAction st p a).2 = none) : Reachable (applyAction st p a).1

/-- The number of tiles tracked by the state: all hands, all concealed
piles, and the live attack tile if any. -/
def tileSum (st : GoitaState) : Nat :=
  (st.hands.A.length + st.hands.B.length + st.hands.C.length + st.hands.D.length) +
  (st.face_down_hidden.A.length + st.face_down_hidden.B.length +
    st.face_down_hidden.C.length + st.face_down_hidden.D.length) +
  (if st.current_attack.isSome then 1 else 0)

/-- The team string credited for a winning seat, following the spec:
"AC" for seats A and C, "BD" otherwise. -/
def team_of (p : Player) : String :=
  if p = .A ∨ p = .C then "AC" else "BD"

/-- Read a team's cumulative score by its dict key. -/
def scoreOfTeam (st : GoitaState) (team : String) : Nat :=
  if team = "AC" then st.team_score.AC else st.team_score.BD

/-- Base point table as written in the spec's §3 sentence
"rank determines base point value (9→50, 8→50, 7→40, 6→40, 5→30, 4→30,
3→20, 2→20, 1→10)"; 0 outside the listed ranks. -/
def base_table (t : Nat) : Nat :=
  if t = 9 then 50 else if t = 8 then 50 else if t = 7 then 40 else if t = 6 then 40
  else if t = 5 then 30 else if t = 4 then 30 else if t = 3 then 20 else if t = 2 then 20
  else if t = 1 then 10 else 0

/-- Scoring reference definition, written from the words of claim C6 /
spec §4.1: team is "AC" for seats A and C and "BD" otherwise; the base is
100 when the winner's concealed pile is non-empty and its last entry
together with the winning tile form the unordered pair 8/9, else the base
table value; the score is doubled exactly when `last_block_player` is the
winner and `last_block` is the winning tile. -/
def score_spec (st : GoitaState) (p : Player) (t : Nat) : Nat × String :=
  let team : String := if p = .A ∨ p = .C then "AC" else "BD"
  let pile := st.face_down_hidden.get p
  let b : Nat :=
    match pile.getLast? with
    | some h => if ({h, t} : Finset Nat) = ({8, 9} : Finset Nat) then 100 else base_table t
    | none => base_table t
  let s : Nat := if st.last_block_player = some p ∧ st.last_block = some t then b * 2 else b
  (s, team)

/-- Invariant relating the double-tracking fields to the concealed piles:
whenever `last_block_player` is set to a seat, that seat's concealed pile
ends in `last_block` (the globally most recent concealment was that
seat's most recent concealment). -/
def LastBlockInv (st : GoitaState) : Prop :=
  ∀ p : Player, st.last_block_player = some p →
    (st.face_down_hidden.get p).getLast? = st.last_block

/-- A valid deal used by several concrete runs: seat A holds eight 1s. -/
def deal0 : SeatMap (List Nat) :=
  { A := [1, 1, 1, 1, 1, 1, 1, 1]
    B := [1, 1, 9, 8, 7, 7, 6, 6]
    C := [5, 5, 5, 5, 4, 4, 4, 4]
    D := [3, 3, 3, 3, 2, 2, 2, 2] }

/-- Round freshly dealt from `deal0` with dealer A. -/
def st0 : GoitaState := GoitaState.init deal0 Player.A

/-- Three passes by seats B, C, D in order. -/
def passBCD : List (Player × GAction) :=
  [(Player.B, ("pass", none, none)), (Player.C, ("pass", none, none)),
   (Player.D, ("pass", none, none))]

/-- Seat A covers with a 1 and attacks with a 1. -/
def aabA : Player × GAction := (Player.A, ("attack_after_block", some 1, some 1))

/-- Trace for the C1 counterexample: A covers-then-attacks, everyone
passes, so the turn wraps back to A with the attack tile still live. -/
def msC1 : List (Player × GAction) := aabA :: passBCD

/-- Round after A's opening cover-then-attack (turn is B, receive phase). -/
def st1c : GoitaState := (applySeq st0 [aabA]).1

/-- Trace for the C3 counterexample: A plays out all eight 1s in four
cover-then-attack moves with everyone passing in between, winning. -/
def msC3 : List (Player × GAction) :=
  aabA :: passBCD ++ aabA :: passBCD ++ aabA :: passBCD ++ [aabA]

/-- Trace for the C4 counterexample: A's opening cover-then-attack is
received by B, which discards both the block and the live attack tile. -/
def msC4 : List (Player × GAction) := [aabA, (Player.B, ("receive", some 1, none))]

/-- Trace for C10: A plays down to two tiles, then a bare attack (which
`apply_attack` accepts even though a cover is due) leaves one tile;
everyone passes, and A faces a mandatory cover-then-attack with one tile. -/
def msC10 : List (Player × GAction) :=
  aabA :: passBCD ++ aabA :: passBCD ++ aabA :: passBCD ++
  ((Player.A, ("attack", none, some 1)) :: passBCD)

/-- A valid deal in which seat A holds both kings and six 1s. -/
def deal7 : SeatMap (List Nat) :=
  { A := [9, 8, 1, 1, 1, 1, 1, 1]
    B := [7, 7, 6, 6, 5, 5, 5, 5]
    C := [4, 4, 4, 4, 3, 3, 3, 3]
    D := [2, 2, 2, 2, 1, 1, 1, 1] }

/-- Round freshly dealt from `deal7` with dealer A. -/
def st7 : GoitaState := GoitaState.init deal7 Player.A

/-- Trace for the C7 witness: A plays its six 1s in three cover-then-attack
moves with everyone passing, leaving A the hand [9, 8]. -/
def ms7 : List (Player × GAction) :=
  aabA :: passBCD ++ aabA :: passBCD ++ aabA :: passBCD

/-- A malformed hands mapping: seat A has nine tiles, 33 tiles total. -/
def badHands : SeatMap (List Nat) :=
  { A := [9, 8, 7, 7, 6, 6, 5, 5, 5]
    B := [5, 4, 4, 4, 4, 3, 3, 3]
    C := [3, 2, 2, 2, 2, 1, 1, 1]
    D := [1, 1, 1, 1, 1, 1, 1, 1] }

/-- A state realising the C6 scenario: the winner's most recent
concealment is a 3 and `last_block`/`last_block_player` still record it. -/
def stC6 : GoitaState :=
  { hands := { A := [3], B := [], C := [], D := [] }
    had_both_kings := { A := false, B := false, C := false, D := false }
    face_down_hidden := { A := [3], B := [], C := [], D := [] }
    current_attack := none
    attacker := some Player.A
    phase := "attack"
    turn := Player.A
    last_block := some 3
    last_block_player := some Player.A
    king_block_used := 0
    finished := false
    winner := none
    team_score := { AC := 0, BD := 0 } }

/-! Helper lemmas shared by the claim theorems. -/

theorem reachable_applySeq (st : GoitaState) (ms : List (Player × GAction))
    (hr : Reachable st) (hok : (applySeq st ms).2 = true) : Reachable (applySeq st ms).1 := by
  induction ms generalizing st with
  | nil => exact hr
  | cons pa rest ih =>
    obtain ⟨p, a⟩ := pa
    simp only [applySeq] at hok ⊢
    rcases h : (applyAction st p a).2 with _ | e
    · simp only [h] at hok ⊢
      exact ih _ (Reachable.step st p a hr h) hok
    · simp [h] at hok

theorem mem_sortedSet {b : Nat} {l : List Nat} : b ∈ sortedSet l ↔ b ∈ l := by
  unfold sortedSet
  rw [List.mem_insertionSort, List.mem_dedup]

theorem can_receive_isSome {st : GoitaState} {p : Player} {b : Nat}
    (h : can_receive st p b = true) : st.current_attack.isSome := by
  unfold can_receive at h
  rcases hca : st.current_attack with _ | a
  · rw [hca] at h; simp at h
  · rfl

theorem can_attack_without_block_mem {st : GoitaState} {p : Player} {t : Nat}
    (h : can_attack_without_block st p t = true) : t ∈ st.hands.get p := by
  unfold can_attack_without_block at h
  by_cases hm : t ∈ st.hands.get p
  · exact hm
  · simp [hm] at h

theorem can_attack_with_block_mem {st : GoitaState} {p : Player} {b t : Nat}
    (h : can_attack_with_block st p b t = true) :
    b ∈ st.hands.get p ∧ t ∈ st.hands.get p := by
  unfold can_attack_with_block at h
  by_cases hm : b ∈ st.hands.get p ∧ t ∈ st.hands.get p
  · exact hm
  · rw [Decidable.not_and_iff_or_not] at hm
    rcases hm with hm | hm <;> simp [hm] at h

theorem can_attack_with_block_mem_erase {st : GoitaState} {p : Player} {b t : Nat}
    (h : can_attack_with_block st p b t = true) : t ∈ (st.hands.get p).erase b := by
  obtain ⟨hb, ht⟩ := can_attack_with_block_mem h
  by_cases hbt : b = t
  · subst hbt
    have hcnt : ¬ (st.hands.get p).count b < 2 := by
      unfold can_attack_with_block at h
      by_cases hc : (st.hands.get p).count b < 2
      · simp [hb, ht, hc] at h
      · exact hc
    have : 0 < ((st.hands.get p).erase b).count b := by
      rw [List.count_erase_self]
      omega
    exact List.count_pos_iff.mp this
  · exact (List.mem_erase_of_ne (Ne.symm hbt)).mpr ht

theorem apply_pass_ok_iff (st : GoitaState) (p : Player) :
    (apply_pass st p).2 = none ↔ st.phase = "receive" ∧ p = st.turn := by
  unfold apply_pass
  by_cases h1 : st.phase = "receive"
  · by_cases h2 : p = st.turn
    · subst h2
      rcases hA : st.attacker with _ | atk
      · simp [h1, hA]
      · by_cases h3 : next_player st.turn ≠ atk <;> simp [h1, hA, h3]
    · simp [h1, h2]
  · simp [h1]

theorem apply_receive_ok_iff (st : GoitaState) (p : Player) (b : Nat) :
    (apply_receive st p b).2 = none ↔
      st.phase = "receive" ∧ p = st.turn ∧ can_receive st p b = true ∧ b ∈ st.hands.get p := by
  unfold apply_receive
  by_cases h1 : st.phase = "receive"
  · by_cases h2 : p = st.turn
    · subst h2
      by_cases h3 : can_receive st st.turn b = true
      · by_cases h4 : b ∈ st.hands.get st.turn <;> simp [h1, h3, h4]
      · simp [h1, h3]
    · simp [h1, h2]
  · simp [h1]

theorem apply_attack_ok_iff (st : GoitaState) (p : Player) (t : Nat) :
    (apply_attack st p t).2 = none ↔
      st.phase = "attack" ∧ p = st.turn ∧ can_attack_without_block st p t = true := by
  unfold apply_attack
  by_cases h1 : st.phase = "attack"
  · by_cases h2 : p = st.turn
    · subst h2
      by_cases h4 : can_attack_without_block st st.turn t = true
      · have h3 : t ∈ st.hands.get st.turn := can_attack_without_block_mem h4
        simp [h1, h3, h4, apply_ite Prod.snd]
      · by_cases h3 : t ∈ st.hands.get st.turn <;> simp [h1, h3, h4]
    · simp [h1, h2]
  · simp [h1]

theorem apply_aab_ok_iff (st : GoitaState) (p : Player) (b t : Nat) :
    (apply_attack_after_block st p b t).2 = none ↔
      st.phase = "attack" ∧ p = st.turn ∧ can_attack_with_block st p b t = true := by
  unfold apply_attack_after_block
  by_cases h1 : st.phase = "attack"
  · by_cases h2 : p = st.turn
    · subst h2
      by_cases h4 : can_attack_with_block st st.turn b t = true
      · obtain ⟨hb, ht⟩ := can_attack_with_block_mem h4
        simp [h1, hb, ht, h4, apply_ite Prod.snd]
      · by_cases h3 : b ∈ st.hands.get st.turn ∧ t ∈ st.hands.get st.turn
        · simp [h1, h3.1, h3.2, h4]
        · rw [Decidable.not_and_iff_or_not] at h3
          rcases h3 with h3 | h3 <;> simp [h1, h3, h4]
    · simp [h1, h2]
  · simp [h1]

theorem tileSum_finish_round (s : GoitaState) (q : Player) (a : Nat) :
    tileSum (finish_round s q a) = tileSum s := rfl

theorem pass_tileSum (st : GoitaState) (p : Player) :
    tileSum (apply_pass st p).1 = tileSum st := by
  unfold apply_pass
  by_cases h1 : st.phase ≠ "receive"
  · simp [h1]
  · by_cases h2 : p ≠ st.turn
    · simp [h1, h2]
    · rcases hA : st.attacker with _ | atk
      · simp [h1, h2, hA, tileSum]
      · by_cases h3 : next_player p = atk <;> simp [h1, h2, hA, h3, tileSum]

theorem can_receive_some {st : GoitaState} {p : Player} {b : Nat}
    (h : can_receive st p b = true) : ∃ a, st.current_attack = some a := by
  unfold can_receive at h
  rcases hc : st.current_attack with _ | a
  · rw [hc] at h; simp at h
  · exact ⟨a, rfl⟩

theorem receive_tileSum {st : GoitaState} {p : Player} {b : Nat}
    (h : (apply_receive st p b).2 = none) :
    tileSum (apply_receive st p b).1 + 2 = tileSum st := by
  obtain ⟨h1, h2, h3, h4⟩ := (apply_receive_ok_iff st p b).mp h
  obtain ⟨a, hca⟩ := can_receive_some h3
  subst h2
  unfold apply_receive
  simp only [h1, h3, h4, ne_eq, not_true_eq_false, if_false, not_false_eq_true, if_true,
    Bool.true_eq_false, ite_false, ite_true]
  unfold tileSum
  have hlen := List.length_erase_add_one h4
  rcases hT : st.turn <;>
    rw [hT] at h4 hlen <;>
    simp [SeatMap.set, SeatMap.get, hca] at hlen ⊢ <;>
    omega

theorem attack_tileSum {st : GoitaState} {p : Player} {t : Nat}
    (h : (apply_attack st p t).2 = none) :
    tileSum (apply_attack st p t).1 + (if st.current_attack.isSome then 1 else 0) = tileSum st := by
  obtain ⟨h1, h2, h4⟩ := (apply_attack_ok_iff st p t).mp h
  have h3 := can_attack_without_block_mem h4
  subst h2
  unfold apply_attack
  simp only [h1, h3, h4, ne_eq, not_true_eq_false, if_false, not_false_eq_true, if_true,
    Bool.true_eq_false, ite_false, ite_true]
  have hlen := List.length_erase_add_one h3
  by_cases h5 : ((st.hands.get st.turn).erase t).length = 0 <;>
    simp only [h5, ite_true, ite_false, if_true, if_false, tileSum_finish_round] <;>
    unfold tileSum <;>
    rcases hT : st.turn <;>
    rw [hT] at h3 hlen <;>
    rcases hca : st.current_attack with _ | c <;>
    simp [SeatMap.set, SeatMap.get] at hlen ⊢ <;>
    omega

theorem aab_tileSum {st : GoitaState} {p : Player} {b t : Nat}
    (h : (apply_attack_after_block st p b t).2 = none) :
    tileSum (apply_attack_after_block st p b t).1 + (if st.current_attack.isSome then 1 else 0) =
      tileSum st := by
  obtain ⟨h1, h2, h4⟩ := (apply_aab_ok_iff st p b t).mp h
  obtain ⟨hb, ht⟩ := can_attack_with_block_mem h4
  have hte := can_attack_with_block_mem_erase h4
  subst h2
  unfold apply_attack_after_block
  simp only [h1, hb, ht, h4, ne_eq, not_true_eq_false, if_false, not_false_eq_true, if_true,
    Bool.true_eq_false, ite_false, ite_true, not_or, and_self, or_self]
  have hlen1 := List.length_erase_add_one hb
  have hlen2 := List.length_erase_add_one hte
  by_cases h5 : (((st.hands.get st.turn).erase b).erase t).length = 0 <;>
    simp only [h5, ite_true, ite_false, if_true, if_false, tileSum_finish_round] <;>
    unfold tileSum <;>
    rcases hT : st.turn <;>
    rw [hT] at hb hte hlen1 hlen2 <;>
    rcases hca : st.current_attack with _ | c <;>
    simp [SeatMap.set, SeatMap.get] at hlen1 hlen2 ⊢ <;>
    omega

theorem SeatMap.get_set_self {α : Type} (m : SeatMap α) (p : Player) (v : α) :
    (m.set p v).get p = v := by
  cases p <;> rfl

theorem finish_round_fields (s : GoitaState) (q : Player) (a : Nat) :
    (finish_round s q a).hands = s.hands ∧
    (finish_round s q a).face_down_hidden = s.face_down_hidden ∧
    (finish_round s q a).current_attack = s.current_attack ∧
    (finish_round s q a).last_block = s.last_block ∧
    (finish_round s q a).last_block_player = s.last_block_player ∧
    (finish_round s q a).finished = true := by
  unfold finish_round
  exact ⟨rfl, rfl, rfl, rfl, rfl, rfl⟩

theorem apply_receive_fail_eq {st : GoitaState} {p : Player} {b : Nat}
    (h : (apply_receive st p b).2 ≠ none) : (apply_receive st p b).1 = st := by
  unfold apply_receive at h ⊢
  by_cases h1 : st.phase ≠ "receive"
  · simp [h1]
  by_cases h2 : p ≠ st.turn
  · simp [h1, h2]
  by_cases h3 : can_receive st p b = true
  · by_cases h4 : b ∈ st.hands.get p
    · exfalso; simp [h1, h2, h3, h4] at h
    · simp [h1, h2, h3, h4]
  · simp [h1, h2, h3]

theorem apply_pass_fail_eq {st : GoitaState} {p : Player}
    (h : (apply_pass st p).2 ≠ none) : (apply_pass st p).1 = st := by
  unfold apply_pass at h ⊢
  by_cases h1 : st.phase ≠ "receive"
  · simp [h1]
  by_cases h2 : p ≠ st.turn
  · simp [h1, h2]
  exfalso
  rcases hA : st.attacker with _ | atk
  · simp [h1, h2, hA] at h
  · by_cases h3 : next_player p = atk <;> simp [h1, h2, hA, h3] at h

theorem apply_attack_fail_eq {st : GoitaState} {p : Player} {t : Nat}
    (h : (apply_attack st p t).2 ≠ none) : (apply_attack st p t).1 = st := by
  unfold apply_attack at h ⊢
  by_cases h1 : st.phase ≠ "attack"
  · simp [h1]
  by_cases h2 : p ≠ st.turn
  · simp [h1, h2]
  by_cases h3 : t ∈ st.hands.get p
  · by_cases h4 : can_attack_without_block st p t = true
    · exfalso
      simp [h1, h2, h3, h4, apply_ite Prod.snd] at h
    · simp [h1, h2, h3, h4]
  · simp [h1, h2, h3]

theorem apply_aab_fail_eq {st : GoitaState} {p : Player} {b t : Nat}
    (h : (apply_attack_after_block st p b t).2 ≠ none) :
    (apply_attack_after_block st p b t).1 = st := by
  unfold apply_attack_after_block at h ⊢
  by_cases h1 : st.phase ≠ "attack"
  · simp [h1]
  by_cases h2 : p ≠ st.turn
  · simp [h1, h2]
  by_cases h3 : b ∈ st.hands.get p ∧ t ∈ st.hands.get p
  · by_cases h4 : can_attack_with_block st p b t = true
    · exfalso
      simp [h1, h2, h3.1, h3.2, h4, apply_ite Prod.snd] at h
    · simp [h1, h2, h3.1, h3.2, h4]
  · rw [Decidable.not_and_iff_or_not] at h3
    rcases h3 with h3 | h3 <;> simp [h1, h2, h3]

theorem apply_pass_fields (st : GoitaState) (p : Player) :
    (apply_pass st p).1.face_down_hidden = st.face_down_hidden ∧
    (apply_pass st p).1.last_block = st.last_block ∧
    (apply_pass st p).1.last_block_player = st.last_block_player := by
  unfold apply_pass
  by_cases h1 : st.phase ≠ "receive"
  · simp [h1]
  by_cases h2 : p ≠ st.turn
  · simp [h1, h2]
  rcases hA : st.attacker with _ | atk
  · simp [h1, h2, hA]
  · by_cases h3 : next_player p = atk <;> simp [h1, h2, hA, h3]

theorem receive_result_fields {st : GoitaState} {p : Player} {b : Nat}
    (h : (apply_receive st p b).2 = none) :
    (apply_receive st p b).1.face_down_hidden = st.face_down_hidden ∧
    (apply_receive st p b).1.last_block = st.last_block ∧
    (apply_receive st p b).1.last_block_player = st.last_block_player := by
  obtain ⟨h1, h2, h3, h4⟩ := (apply_receive_ok_iff st p b).mp h
  subst h2
  unfold apply_receive
  simp [h1, h3, h4]

theorem attack_result_fields {st : GoitaState} {p : Player} {t : Nat}
    (h : (apply_attack st p t).2 = none) :
    (apply_attack st p t).1.face_down_hidden = st.face_down_hidden ∧
    (apply_attack st p t).1.last_block = st.last_block ∧
    (apply_attack st p t).1.last_block_player = st.last_block_player := by
  obtain ⟨h1, h2, h4⟩ := (apply_attack_ok_iff st p t).mp h
  have h3 := can_attack_without_block_mem h4
  subst h2
  unfold apply_attack
  simp [h1, h3, h4, finish_round, apply_ite Prod.fst, apply_ite GoitaState.face_down_hidden,
    apply_ite GoitaState.last_block, apply_ite GoitaState.last_block_player]

theorem aab_result_fields {st : GoitaState} {p : Player} {b t : Nat}
    (h : (apply_attack_after_block st p b t).2 = none) :
    (apply_attack_after_block st p b t).1.last_block = some b ∧
    (apply_attack_after_block st p b t).1.last_block_player = some p ∧
    (apply_attack_after_block st p b t).1.face_down_hidden =
      st.face_down_hidden.set p (st.face_down_hidden.get p ++ [b]) := by
  obtain ⟨h1, h2, h4⟩ := (apply_aab_ok_iff st p b t).mp h
  obtain ⟨hb, ht⟩ := can_attack_with_block_mem h4
  subst h2
  unfold apply_attack_after_block
  simp [h1, hb, ht, h4, finish_round, apply_ite Prod.fst, apply_ite GoitaState.face_down_hidden,
    apply_ite GoitaState.last_block, apply_ite GoitaState.last_block_player]

theorem lastBlockInv_of_fields {s s' : GoitaState}
    (h1 : s'.face_down_hidden = s.face_down_hidden) (h2 : s'.last_block = s.last_block)
    (h3 : s'.last_block_player = s.last_block_player) (hinv : LastBlockInv s) :
    LastBlockInv s' := by
  intro q hq
  rw [h3] at hq
  rw [h1, h2]
  exact hinv q hq

theorem applyAction_lastBlockInv (st : GoitaState) (p : Player) (a : GAction)
    (hinv : LastBlockInv st) : LastBlockInv (applyAction st p a).1 := by
  obtain ⟨ty, ob, oa⟩ := a
  by_cases t1 : ty = "pass"
  · subst t1
    show LastBlockInv (apply_pass st p).1
    obtain ⟨f1, f2, f3⟩ := apply_pass_fields st p
    exact lastBlockInv_of_fields f1 f2 f3 hinv
  by_cases t2 : ty = "receive"
  · subst t2
    rcases ob with _ | bb
    · exact hinv
    show LastBlockInv (apply_receive st p bb).1
    by_cases hok : (apply_receive st p bb).2 = none
    · obtain ⟨f1, f2, f3⟩ := receive_result_fields hok
      exact lastBlockInv_of_fields f1 f2 f3 hinv
    · rw [apply_receive_fail_eq hok]; exact hinv
  by_cases t3 : ty = "attack"
  · subst t3
    rcases oa with _ | aa
    · exact hinv
    show LastBlockInv (apply_attack st p aa).1
    by_cases hok : (apply_attack st p aa).2 = none
    · obtain ⟨f1, f2, f3⟩ := attack_result_fields hok
      exact lastBlockInv_of_fields f1 f2 f3 hinv
    · rw [apply_attack_fail_eq hok]; exact hinv
  by_cases t4 : ty = "attack_after_block"
  · subst t4
    rcases ob with _ | bb
    · rcases oa with _ | aa <;> exact hinv
    rcases oa with _ | aa
    · exact hinv
    show LastBlockInv (apply_attack_after_block st p bb aa).1
    by_cases hok : (apply_attack_after_block st p bb aa).2 = none
    · obtain ⟨f1, f2, f3⟩ := aab_result_fields hok
      intro q hq
      rw [f2] at hq
      injection hq with hq
      subst hq
      rw [f3, f1, SeatMap.get_set_self, List.getLast?_concat]
    · rw [apply_aab_fail_eq hok]; exact hinv
  · show LastBlockInv (applyAction st p (ty, ob, oa)).1
    unfold applyAction
    dsimp only
    rw [if_neg t1, if_neg t2, if_neg t3, if_neg t4]
    exact hinv

theorem reachable_lastBlockInv {st : GoitaState} (h : Reachable st) : LastBlockInv st := by
  induction h with
  | init hands dealer hv =>
    intro q hq
    simp [GoitaState.init] at hq
  | step st p a hr hok ih =>
    exact applyAction_lastBlockInv st p a ih

theorem mem_coverAttackMoves {st : GoitaState} {p : Player} {hand : List Nat} {a : GAction}
    (h : a ∈ coverAttackMoves st p hand) :
    ∃ b t, a = ("attack_after_block", some b, some t) ∧
      can_attack_with_block st p b t = true := by
  unfold coverAttackMoves at h
  rw [List.mem_flatMap] at h
  obtain ⟨b, hb, hmem⟩ := h
  rw [List.mem_filterMap] at hmem
  obtain ⟨t, ht, hit⟩ := hmem
  by_cases hc1 : b = t ∧ hand.count b < 2
  · rw [if_pos hc1] at hit
    exact absurd hit (by simp)
  rw [if_neg hc1] at hit
  by_cases hc2 : can_attack_with_block st p b t = true
  · rw [if_pos hc2] at hit
    injection hit with hit
    exact ⟨b, t, hit.symm, hc2⟩
  · rw [if_neg hc2] at hit
    exact absurd hit (by simp)

/-- Support lemma for C1 and C2: every action listed by `legal_actions`
for the seat whose turn it is succeeds under the `simulate.py` dispatch. -/
theorem legal_actions_succeed (st : GoitaState) (a : GAction)
    (h : a ∈ legal_actions st st.turn) :
    (applyAction st st.turn a).2 = none := by
  unfold legal_actions at h
  by_cases hf : st.finished
  · simp [hf] at h
  simp only [hf, Bool.false_eq_true, if_false, ite_false] at h
  by_cases hrv : st.phase = "receive"
  · simp only [hrv, eq_self_iff_true, if_true, ite_true] at h
    rcases hca : st.current_attack with _ | att
    · rw [hca] at h
      simp only [List.mem_singleton] at h
      subst h
      show (apply_pass st st.turn).2 = none
      exact (apply_pass_ok_iff st st.turn).mpr ⟨hrv, rfl⟩
    · rw [hca] at h
      simp only [List.mem_append, List.mem_singleton] at h
      rcases h with h | h
      · subst h
        show (apply_pass st st.turn).2 = none
        exact (apply_pass_ok_iff st st.turn).mpr ⟨hrv, rfl⟩
      · rw [List.mem_filterMap] at h
        obtain ⟨b, hb, hib⟩ := h
        by_cases hcr : can_receive st st.turn b = true
        · rw [if_pos hcr] at hib
          injection hib with hib
          subst hib
          show (apply_receive st st.turn b).2 = none
          exact (apply_receive_ok_iff st st.turn b).mpr
            ⟨hrv, rfl, hcr, mem_sortedSet.mp hb⟩
        · rw [if_neg hcr] at hib
          exact absurd hib (by simp)
  simp only [eq_false hrv, if_false, ite_false] at h
  by_cases hat : st.phase = "attack"
  · simp only [hat, eq_self_iff_true, if_true, ite_true, ne_eq, not_true_eq_false,
      if_false, ite_false] at h
    by_cases hb1 : st.attacker = none ∧ st.current_attack = none
    · rw [if_pos hb1] at h
      obtain ⟨b, t, rfl, hcan⟩ := mem_coverAttackMoves h
      show (apply_attack_after_block st st.turn b t).2 = none
      exact (apply_aab_ok_iff st st.turn b t).mpr ⟨hat, rfl, hcan⟩
    · rw [if_neg hb1] at h
      by_cases hb2 : st.current_attack = none ∧ st.attacker = some st.turn
      · rw [if_pos hb2] at h
        rw [List.mem_filterMap] at h
        obtain ⟨t, ht, hit⟩ := h
        by_cases hcan : can_attack_without_block st st.turn t = true
        · rw [if_pos hcan] at hit
          injection hit with hit
          subst hit
          show (apply_attack st st.turn t).2 = none
          exact (apply_attack_ok_iff st st.turn t).mpr ⟨hat, rfl, hcan⟩
        · rw [if_neg hcan] at hit
          exact absurd hit (by simp)
      · rw [if_neg hb2] at h
        obtain ⟨b, t, rfl, hcan⟩ := mem_coverAttackMoves h
        show (apply_attack_after_block st st.turn b t).2 = none
        exact (apply_aab_ok_iff st st.turn b t).mpr ⟨hat, rfl, hcan⟩
  · simp [eq_false hat] at h

theorem receive_success_mem {st : GoitaState} {p : Player} {b : Nat}
    (hf : st.finished = false) (h : (apply_receive st p b).2 = none) :
    ("receive", some b, none) ∈ legal_actions st p := by
  obtain ⟨h1, h2, h3, h4⟩ := (apply_receive_ok_iff st p b).mp h
  obtain ⟨att, hca⟩ := can_receive_some h3
  unfold legal_actions
  simp only [hf, Bool.false_eq_true, if_false, ite_false]
  simp only [h1, eq_self_iff_true, if_true, ite_true]
  rw [hca]
  refine List.mem_append.mpr (Or.inr ?_)
  rw [List.mem_filterMap]
  exact ⟨b, mem_sortedSet.mpr h4, by rw [if_pos h3]⟩

theorem pass_success_mem {st : GoitaState} {p : Player}
    (hf : st.finished = false) (h : (apply_pass st p).2 = none) :
    ("pass", none, none) ∈ legal_actions st p := by
  obtain ⟨h1, h2⟩ := (apply_pass_ok_iff st p).mp h
  unfold legal_actions
  simp only [hf, Bool.false_eq_true, if_false, ite_false]
  simp only [h1, eq_self_iff_true, if_true, ite_true]
  rcases hca : st.current_attack with _ | att
  · exact List.mem_singleton.mpr rfl
  · exact List.mem_append.mpr (Or.inl (List.mem_singleton.mpr rfl))

theorem pair_kings_iff (h t : Nat) :
    ({h, t} : Finset Nat) = {8, 9} ↔ ((h = 8 ∧ t = 9) ∨ (h = 9 ∧ t = 8)) := by
  constructor
  · intro he
    rw [Finset.ext_iff] at he
    simp only [Finset.mem_insert, Finset.mem_singleton] at he
    have h8 := he 8
    have h9 := he 9
    have hh := he h
    have ht2 := he t
    omega
  · rintro (⟨rfl, rfl⟩ | ⟨rfl, rfl⟩)
    · rfl
    · decide

theorem POINTS_eq_base_table (t : Nat) : POINTS t = base_table t := by
  rcases t with _ | _ | _ | _ | _ | _ | _ | _ | _ | _ | n <;> rfl

theorem calc_score_100 {s : GoitaState} {q : Player} {a : Nat}
    (hpair : (s.face_down_hidden.get q).getLast? = some 8 ∧ a = 9 ∨
      (s.face_down_hidden.get q).getLast? = some 9 ∧ a = 8)
    (hnd : ¬(s.last_block_player = some q ∧ s.last_block = some a)) :
    (calculate_score s q a).1 = 100 := by
  unfold calculate_score
  rcases hpair with ⟨hl, rfl⟩ | ⟨hl, rfl⟩ <;> simp [hl, hnd]

theorem scoreOfTeam_finish_round (s : GoitaState) (q : Player) (a : Nat) :
    scoreOfTeam (finish_round s q a) (team_of q) =
      scoreOfTeam s (team_of q) +
        (calculate_score { s with finished := true, winner := some q } q a).1 := by
  by_cases hq : q = .A ∨ q = .C <;>
    simp [finish_round, scoreOfTeam, TeamScore.add, team_of, calculate_score, hq]

theorem attack_finish_score {st : GoitaState} {p : Player} {t : Nat}
    (hok : (apply_attack st p t).2 = none)
    (hfin : (apply_attack st p t).1.finished = true) (h0 : st.finished = false) :
    ∃ s1 : GoitaState,
      (apply_attack st p t).1 = finish_round s1 p t ∧
      s1.face_down_hidden = st.face_down_hidden ∧
      s1.last_block = st.last_block ∧
      s1.last_block_player = st.last_block_player ∧
      s1.team_score = st.team_score := by
  obtain ⟨h1, h2, h4⟩ := (apply_attack_ok_iff st p t).mp hok
  have h3 := can_attack_without_block_mem h4
  subst h2
  unfold apply_attack at hfin ⊢
  by_cases h5 : ((st.hands.get st.turn).erase t).length = 0
  · simp only [h1, h3, h4, h5, ne_eq, not_true_eq_false, if_false, not_false_eq_true,
      if_true, ite_true, ite_false, eq_self_iff_true, Bool.true_eq_false] at hfin ⊢
    exact ⟨_, rfl, rfl, rfl, rfl, rfl⟩
  · exfalso
    simp only [h1, h3, h4, h5, ne_eq, not_true_eq_false, if_false, not_false_eq_true,
      if_true, ite_true, ite_false, eq_self_iff_true, Bool.true_eq_false] at hfin
    rw [h0] at hfin
    exact Bool.false_ne_true hfin

theorem aab_finish_score {st : GoitaState} {p : Player} {b t : Nat}
    (hok : (apply_attack_after_block st p b t).2 = none)
    (hfin : (apply_attack_after_block st p b t).1.finished = true)
    (h0 : st.finished = false) :
    ∃ s1 : GoitaState,
      (apply_attack_after_block st p b t).1 = finish_round s1 p t ∧
      s1.face_down_hidden = st.face_down_hidden.set p (st.face_down_hidden.get p ++ [b]) ∧
      s1.last_block = some b ∧
      s1.last_block_player = some p ∧
      s1.team_score = st.team_score := by
  obtain ⟨h1, h2, h4⟩ := (apply_aab_ok_iff st p b t).mp hok
  obtain ⟨hb, ht⟩ := can_attack_with_block_mem h4
  subst h2
  unfold apply_attack_after_block at hfin ⊢
  by_cases h5 : (((st.hands.get st.turn).erase b).erase t).length = 0
  · simp only [h1, hb, ht, h4, h5, ne_eq, not_true_eq_false, if_false, not_false_eq_true,
      if_true, ite_true, ite_false, eq_self_iff_true, Bool.true_eq_false, not_or, and_self,
      or_self] at hfin ⊢
    exact ⟨_, rfl, rfl, rfl, rfl, rfl⟩
  · exfalso
    simp only [h1, hb, ht, h4, h5, ne_eq, not_true_eq_false, if_false, not_false_eq_true,
      if_true, ite_true, ite_false, eq_self_iff_true, Bool.true_eq_false, not_or, and_self,
      or_self] at hfin
    rw [h0] at hfin
    exact Bool.false_ne_true hfin

/-! Claim theorems. -/

/-- C1 counterexample: a Round reached by dealer A covering-then-attacking
and the three other seats passing has the attack tile still live
(`current_attack = some 1`, `attacker = some A`), yet the bare
`apply_attack` succeeds even though `legal_actions` does not list any bare
attack — so a move outside `legal_moves` succeeds via `apply`, and a bare
Attack is accepted with `current_attack ≠ None`. -/
theorem c1_cex :
    (applySeq st0 msC1).2 = true ∧
    (apply_attack (applySeq st0 msC1).1 Player.A 1).2 = none ∧
    ("attack", (none : Option Nat), some 1) ∉ legal_actions (applySeq st0 msC1).1 Player.A ∧
    (applySeq st0 msC1).1.current_attack = some 1 ∧
    (applySeq st0 msC1).1.attacker = some Player.A ∧
    (applySeq st0 msC1).1.turn = Player.A ∧
    (applySeq st0 msC1).1.phase = "attack" := by decide

/-- C1 (amended): on an unfinished Round, a successful `apply_receive` or
`apply_pass` is always listed by `legal_actions`; but `apply_attack` (and
`apply_attack_after_block`) succeed exactly when the phase is "attack",
the seat is the turn holder and the king-unlock check passes — they do not
require `attacker == seat` or `current_attack == None`, so successful
attacks need not appear in `legal_actions`. -/
theorem c1_success_vs_legal_moves (st : GoitaState) (p : Player) (b t : Nat) :
    (st.finished = false →
      ((apply_receive st p b).2 = none → ("receive", some b, none) ∈ legal_actions st p) ∧
      ((apply_pass st p).2 = none → ("pass", none, none) ∈ legal_actions st p)) ∧
    ((apply_attack st p t).2 = none ↔
      st.phase = "attack" ∧ p = st.turn ∧ can_attack_without_block st p t = true) ∧
    ((apply_attack_after_block st p b t).2 = none ↔
      st.phase = "attack" ∧ p = st.turn ∧ can_attack_with_block st p b t = true) :=
  ⟨fun hf => ⟨receive_success_mem hf, pass_success_mem hf⟩,
   apply_attack_ok_iff st p t, apply_aab_ok_iff st p b t⟩

/-- Witness for C1: instantiates the amended theorem on the concrete Round
after the dealer's opening move, discharging its hypotheses. -/
theorem c1_success_vs_legal_moves_witness :
    ("pass", (none : Option Nat), (none : Option Nat)) ∈ legal_actions st1c Player.B :=
  ((c1_success_vs_legal_moves st1c Player.B 1 1).1 (by decide)).2 (by decide)

/-- C2 counterexample: `legal_actions` in receive phase lists "pass" for a
seat that is not the turn holder (the source never checks `player ==
turn` there), and applying that listed move fails. -/
theorem c2_cex :
    (applySeq st0 [aabA]).2 = true ∧
    st1c.turn = Player.B ∧
    ("pass", (none : Option Nat), (none : Option Nat)) ∈ legal_actions st1c Player.C ∧
    (applyAction st1c Player.C ("pass", none, none)).2 ≠ none := by decide

/-- C2 (amended): every move listed by `legal_actions(round, seat)`
succeeds via the dispatcher provided `seat` is the seat whose turn it is;
for other seats the list may contain moves (e.g. "pass") that fail. -/
theorem c2_legal_moves_succeed (st : GoitaState) (s : Player) (a : GAction)
    (hs : s = st.turn) (h : a ∈ legal_actions st s) :
    (applyAction st s a).2 = none := by
  subst hs
  exact legal_actions_succeed st a h

/-- Witness for C2: the listed "pass" of the turn holder B succeeds. -/
theorem c2_legal_moves_succeed_witness :
    (applyAction st1c Player.B ("pass", none, none)).2 = none :=
  c2_legal_moves_succeed st1c Player.B ("pass", none, none) (by decide) (by decide)

/-- C3 counterexample: a finished Round (A won by playing out its hand) on
which `apply_pass` still succeeds and changes the state — the mutators
never check `finished`, so a finished Round is not immutable. -/
theorem c3_cex :
    (applySeq st0 msC3).2 = true ∧
    (applySeq st0 msC3).1.finished = true ∧
    (apply_pass (applySeq st0 msC3).1 Player.B).2 = none ∧
    (apply_pass (applySeq st0 msC3).1 Player.B).1 ≠ (applySeq st0 msC3).1 := by decide

/-- C3 (amended): once `finished` is set, `legal_actions` returns the
empty list for every seat, so no legal move exists; the four mutators
themselves, however, do not check `finished` and can still mutate a
finished Round when their phase/turn preconditions hold. -/
theorem c3_finished_legal_actions_empty (st : GoitaState) (p : Player)
    (h : st.finished = true) : legal_actions st p = [] := by
  unfold legal_actions
  rw [if_pos h]

/-- Witness for C3: the finished Round of the counterexample trace has an
empty legal-action list. -/
theorem c3_finished_legal_actions_empty_witness :
    (applySeq st0 msC3).1.finished = true ∧
    legal_actions (applySeq st0 msC3).1 Player.B = [] :=
  ⟨by decide, c3_finished_legal_actions_empty (applySeq st0 msC3).1 Player.B (by decide)⟩

/-- C4 counterexample: after the dealer's cover-then-attack is received,
the reachable unfinished Round has hand + concealed-pile + live-attack
total 30, not 32 — `apply_receive` discards both the received block and
the cleared attack tile from the tracked state. -/
theorem c4_cex :
    Reachable (applySeq st0 msC4).1 ∧
    (applySeq st0 msC4).1.finished = false ∧
    tileSum (applySeq st0 msC4).1 = 30 ∧
    tileSum (applySeq st0 msC4).1 ≠ 32 :=
  ⟨reachable_applySeq st0 msC4 (Reachable.init deal0 Player.A (by decide)) (by decide),
   by decide, by decide, by decide⟩

/-- C4 (amended): the sum of hand sizes, concealed-pile sizes and the live
attack tile is not conserved at 32; instead each successful `apply_pass`
preserves it, each successful `apply_receive` decreases it by exactly 2,
and each successful attack (bare or cover-then-attack) leaves it equal to
hands + piles (a decrease by 1 exactly when an attack tile was already
live, as after a pass wrap-around). -/
theorem c4_tile_sum_deltas (st : GoitaState) (p : Player) (b t : Nat) :
    ((apply_pass st p).2 = none → tileSum (apply_pass st p).1 = tileSum st) ∧
    ((apply_receive st p b).2 = none → tileSum (apply_receive st p b).1 + 2 = tileSum st) ∧
    ((apply_attack st p t).2 = none →
      tileSum (apply_attack st p t).1 + (if st.current_attack.isSome then 1 else 0) =
        tileSum st) ∧
    ((apply_attack_after_block st p b t).2 = none →
      tileSum (apply_attack_after_block st p b t).1 +
        (if st.current_attack.isSome then 1 else 0) = tileSum st) :=
  ⟨fun _ => pass_tileSum st p, receive_tileSum, attack_tileSum, aab_tileSum⟩

/-- Witness for C4: the receive of the counterexample trace decreases the
tracked tile count by exactly 2 (from 32 to 30). -/
theorem c4_tile_sum_deltas_witness :
    tileSum (apply_receive st1c Player.B 1).1 + 2 = tileSum st1c :=
  ((c4_tile_sum_deltas st1c Player.B 1 1).2.1) (by decide)

/-- C5: for a king tile (rank 8 or 9) held in hand, attack legality is
exactly the OR of had-both-kings, king-block-used > 0 and the
hand-emptying threshold (hand size exactly 1 for a bare attack, exactly 2
for a cover-then-attack); ranks 1–7 are never subject to the restriction,
and `had_both_kings` alone always unlocks a king attack regardless of
`king_block_used`. -/
theorem c5_king_attack_unlock (st : GoitaState) (p : Player) (t b : Nat)
    (ht : t ∈ st.hands.get p) :
    ((t = 8 ∨ t = 9) →
      (can_attack_without_block st p t = true ↔
        (st.had_both_kings.get p = true ∨ 0 < st.king_block_used ∨
          (st.hands.get p).length = 1)) ∧
      (b ∈ st.hands.get p → (b ≠ t ∨ 2 ≤ (st.hands.get p).count t) →
        (can_attack_with_block st p b t = true ↔
          (st.had_both_kings.get p = true ∨ 0 < st.king_block_used ∨
            (st.hands.get p).length = 2)))) ∧
    (1 ≤ t ∧ t ≤ 7 →
      can_attack_without_block st p t = true ∧
      (b ∈ st.hands.get p → (b ≠ t ∨ 2 ≤ (st.hands.get p).count t) →
        can_attack_with_block st p b t = true)) := by
  constructor
  · rintro (rfl | rfl) <;>
      refine ⟨?_, fun hbmem hdup => ?_⟩
    · unfold can_attack_without_block
      simp [ht]
    · have hnd : ¬(b = 8 ∧ (st.hands.get p).count b < 2) := by
        rintro ⟨rfl, hlt⟩
        rcases hdup with hne | hcnt
        · exact hne rfl
        · omega
      unfold can_attack_with_block
      simp [ht, hbmem, hnd]
    · unfold can_attack_without_block
      simp [ht]
    · have hnd : ¬(b = 9 ∧ (st.hands.get p).count b < 2) := by
        rintro ⟨rfl, hlt⟩
        rcases hdup with hne | hcnt
        · exact hne rfl
        · omega
      unfold can_attack_with_block
      simp [ht, hbmem, hnd]
  · rintro ⟨hlo, hhi⟩
    have hd : t = 1 ∨ t = 2 ∨ t = 3 ∨ t = 4 ∨ t = 5 ∨ t = 6 ∨ t = 7 := by omega
    constructor
    · unfold can_attack_without_block
      simp [ht, hd]
    · intro hbmem hdup
      have hnd : ¬(b = t ∧ (st.hands.get p).count b < 2) := by
        rintro ⟨rfl, hlt⟩
        rcases hdup with hne | hcnt
        · exact hne rfl
        · omega
      unfold can_attack_with_block
      simp [ht, hbmem, hnd, hd]

/-- Witness for C5: in the Round dealt from `deal7`, seat A holds both
kings, so the bare king attack with rank 8 is legal. -/
theorem c5_king_attack_unlock_witness :
    can_attack_without_block st7 Player.A 8 = true :=
  (((c5_king_attack_unlock st7 Player.A 8 1 (by decide)).1 (Or.inl rfl)).1).mpr
    (Or.inl (by decide))

/-- C6: `calculate_score` agrees with the scoring reference definition
`score_spec` written from the spec (team by seat parity; base 100 on a
paired-king finish, else the base table; doubled exactly when the winner
made the most recent concealment with the winning rank); in particular a
winner whose most recent concealment is a "3" who wins attacking "3"
scores 40 for their team. -/
theorem c6_calculate_score_matches_spec :
    (∀ (st : GoitaState) (p : Player) (t : Nat),
      calculate_score st p t = score_spec st p t) ∧
    calculate_score stC6 Player.A 3 = (40, "AC") := by
  constructor
  · intro st p t
    unfold calculate_score score_spec
    rcases hl : (st.face_down_hidden.get p).getLast? with _ | hd
    · simp only [hl]
      rw [POINTS_eq_base_table]
      by_cases hd2 : st.last_block_player = some p ∧ st.last_block = some t <;>
        simp [hd2, mul_comm]
    · simp only [hl]
      have hb : (if (hd = 8 ∧ t = 9) ∨ (hd = 9 ∧ t = 8) then (100 : Nat) else POINTS t) =
          (if ({hd, t} : Finset Nat) = ({8, 9} : Finset Nat) then 100 else base_table t) := by
        by_cases hp : (hd = 8 ∧ t = 9) ∨ (hd = 9 ∧ t = 8)
        · rw [if_pos hp, if_pos ((pair_kings_iff hd t).mpr hp)]
        · rw [if_neg hp, if_neg (fun hc => hp ((pair_kings_iff hd t).mp hc)),
            POINTS_eq_base_table]
      rw [hb]
      by_cases hd2 : st.last_block_player = some p ∧ st.last_block = some t <;>
        simp [hd2, mul_comm]
  · decide

/-- C7: on any reachable Round, when a winning attack (bare or
cover-then-attack) empties the winner's hand and the last entry of the
winner's concealed pile together with the winning tile form the unordered
pair 8/9, the winner's team is credited exactly 100 points — the double
rule can never fire in such a state, because `last_block_player = winner`
forces `last_block` to be the winner's most recent concealment, which
differs from the winning tile. -/
theorem c7_paired_king_scores_100
    (st : GoitaState) (p : Player) (ty : String) (ob : Option Nat) (t : Nat)
    (hre : Reachable st)
    (hty : ty = "attack" ∨ ty = "attack_after_block")
    (h0 : st.finished = false)
    (hok : (applyAction st p (ty, ob, some t)).2 = none)
    (hfin : (applyAction st p (ty, ob, some t)).1.finished = true)
    (hpair :
      ((applyAction st p (ty, ob, some t)).1.face_down_hidden.get p).getLast? = some 8 ∧ t = 9 ∨
      ((applyAction st p (ty, ob, some t)).1.face_down_hidden.get p).getLast? = some 9 ∧ t = 8) :
    scoreOfTeam (applyAction st p (ty, ob, some t)).1 (team_of p) =
      scoreOfTeam st (team_of p) + 100 := by
  rcases hty with rfl | rfl
  · -- bare attack
    have hok' : (apply_attack st p t).2 = none := hok
    have hfin' : (apply_attack st p t).1.finished = true := hfin
    obtain ⟨s1, hres, hfd, hlb, hlbp, hts⟩ := attack_finish_score hok' hfin' h0
    have hpairS1 : ((s1.face_down_hidden.get p).getLast? = some 8 ∧ t = 9) ∨
        ((s1.face_down_hidden.get p).getLast? = some 9 ∧ t = 8) := by
      have h := hpair
      rw [show ((applyAction st p ("attack", ob, some t)).1 : GoitaState) =
        (apply_attack st p t).1 from rfl, hres, (finish_round_fields s1 p t).2.1] at h
      exact h
    have hpairST : ((st.face_down_hidden.get p).getLast? = some 8 ∧ t = 9) ∨
        ((st.face_down_hidden.get p).getLast? = some 9 ∧ t = 8) := by
      rw [← hfd]; exact hpairS1
    show scoreOfTeam (apply_attack st p t).1 (team_of p) = scoreOfTeam st (team_of p) + 100
    rw [hres, scoreOfTeam_finish_round]
    have hnd : ¬(({ s1 with finished := true, winner := some p } :
          GoitaState).last_block_player = some p ∧
        ({ s1 with finished := true, winner := some p } : GoitaState).last_block = some t) := by
      rintro ⟨ha, hbp⟩
      have ha' : s1.last_block_player = some p := ha
      have hb' : s1.last_block = some t := hbp
      rw [hlbp] at ha'
      rw [hlb] at hb'
      have hinv := reachable_lastBlockInv hre p ha'
      rw [hb'] at hinv
      rcases hpairST with ⟨hl, rfl⟩ | ⟨hl, rfl⟩ <;> rw [hl] at hinv <;> simp at hinv
    have h100 : (calculate_score { s1 with finished := true, winner := some p } p t).1 = 100 :=
      calc_score_100 hpairS1 hnd
    rw [h100]
    show scoreOfTeam s1 (team_of p) + 100 = scoreOfTeam st (team_of p) + 100
    unfold scoreOfTeam
    rw [hts]
  · -- cover-then-attack
    rcases ob with _ | b
    · exfalso
      have hbad : (applyAction st p ("attack_after_block", none, some t)).2 =
          some "attack_after_block requires block and attack" := rfl
      rw [hbad] at hok
      exact Option.noConfusion hok
    have hok' : (apply_attack_after_block st p b t).2 = none := hok
    have hfin' : (apply_attack_after_block st p b t).1.finished = true := hfin
    obtain ⟨s1, hres, hfd, hlb, hlbp, hts⟩ := aab_finish_score hok' hfin' h0
    have hpairS1 : ((s1.face_down_hidden.get p).getLast? = some 8 ∧ t = 9) ∨
        ((s1.face_down_hidden.get p).getLast? = some 9 ∧ t = 8) := by
      have h := hpair
      rw [show ((applyAction st p ("attack_after_block", some b, some t)).1 : GoitaState) =
        (apply_attack_after_block st p b t).1 from rfl, hres,
        (finish_round_fields s1 p t).2.1] at h
      exact h
    have hbform : (s1.face_down_hidden.get p).getLast? = some b := by
      rw [hfd, SeatMap.get_set_self, List.getLast?_concat]
    show scoreOfTeam (apply_attack_after_block st p b t).1 (team_of p) =
      scoreOfTeam st (team_of p) + 100
    rw [hres, scoreOfTeam_finish_round]
    have hnd : ¬(({ s1 with finished := true, winner := some p } :
          GoitaState).last_block_player = some p ∧
        ({ s1 with finished := true, winner := some p } : GoitaState).last_block = some t) := by
      rintro ⟨_, hbp⟩
      have hb' : s1.last_block = some t := hbp
      rw [hlb] at hb'
      injection hb' with hb'
      rcases hpairS1 with ⟨hl, ht9⟩ | ⟨hl, ht8⟩ <;>
        rw [hbform] at hl <;> injection hl with hl <;> omega
    have h100 : (calculate_score { s1 with finished := true, winner := some p } p t).1 = 100 :=
      calc_score_100 hpairS1 hnd
    rw [h100]
    show scoreOfTeam s1 (team_of p) + 100 = scoreOfTeam st (team_of p) + 100
    unfold scoreOfTeam
    rw [hts]

/-- Witness for C7: in the game dealt from `deal7`, seat A ends the round
by covering with the 8 and attacking with the 9; the AC team is credited
exactly 100 points. -/
theorem c7_paired_king_scores_100_witness :
    scoreOfTeam (applyAction (applySeq st7 ms7).1 Player.A
        ("attack_after_block", some 8, some 9)).1 (team_of Player.A) =
      scoreOfTeam (applySeq st7 ms7).1 (team_of Player.A) + 100 :=
  c7_paired_king_scores_100 (applySeq st7 ms7).1 Player.A "attack_after_block" (some 8) 9
    (reachable_applySeq st7 ms7 (Reachable.init deal7 Player.A (by decide)) (by decide))
    (Or.inr rfl) (by decide) (by decide) (by decide) (by decide)

/-- C8: whenever one of the four mutators reports an illegal move
(`ValueError` in the source), the returned state is exactly the input
state — the source performs every validation before its first mutation,
so a failing call never partially mutates the Round. -/
theorem c8_atomic_failure (st : GoitaState) (p : Player) (b t : Nat) :
    ((apply_receive st p b).2 ≠ none → (apply_receive st p b).1 = st) ∧
    ((apply_pass st p).2 ≠ none → (apply_pass st p).1 = st) ∧
    ((apply_attack st p t).2 ≠ none → (apply_attack st p t).1 = st) ∧
    ((apply_attack_after_block st p b t).2 ≠ none →
      (apply_attack_after_block st p b t).1 = st) :=
  ⟨apply_receive_fail_eq, apply_pass_fail_eq, apply_attack_fail_eq, apply_aab_fail_eq⟩

/-- Witness for C8: receiving in the opening attack phase fails and leaves
the freshly dealt Round unchanged. -/
theorem c8_atomic_failure_witness :
    (apply_receive st0 Player.B 5).2 ≠ none ∧ (apply_receive st0 Player.B 5).1 = st0 :=
  ⟨by decide, (c8_atomic_failure st0 Player.B 5 5).1 (by decide)⟩

/-- C9 counterexample: a malformed hands mapping (seat A holds nine tiles,
33 tiles in total, failing `ValidDeal`) is accepted by the constructor,
which stores the malformed hands verbatim and yields an ordinary
unfinished Round instead of failing. -/
theorem c9_cex :
    ¬ ValidDeal badHands ∧
    (GoitaState.init badHands Player.A).hands = badHands ∧
    ((GoitaState.init badHands Player.A).hands.get Player.A).length = 9 ∧
    (GoitaState.init badHands Player.A).finished = false := by decide

/-- C9 (amended): the engine performs no deal validation — the
constructor accepts every hands mapping unchanged and starts a normal
Round from it; the only deck-size check on the construction path is the
`assert len(deck) == 32` in `create_random_hands`, which checks the fixed
deck itself, not caller-supplied hands. -/
theorem c9_init_accepts_any_hands :
    (∀ (hands : SeatMap (List Nat)) (dealer : Player),
      (GoitaState.init hands dealer).hands = hands ∧
      (GoitaState.init hands dealer).turn = dealer ∧
      (GoitaState.init hands dealer).phase = "attack" ∧
      (GoitaState.init hands dealer).finished = false) ∧
    deckList.length = 32 :=
  ⟨fun _ _ => ⟨rfl, rfl, rfl, rfl⟩, rfl⟩

/-- C10: a stuck Round exists — reachable by successful mutator calls
from a valid deal, not finished, yet with no legal action for the seat
whose turn it is: seat A bare-attacks down to one tile (the bare attack
succeeds after a pass wrap-around even though a cover is due), everyone
passes, and the mandatory cover-then-attack needs two tiles. -/
theorem c10_stuck_state_exists :
    ∃ st : GoitaState, Reachable st ∧ st.finished = false ∧
      legal_actions st st.turn = [] :=
  ⟨(applySeq st0 msC10).1,
   reachable_applySeq st0 msC10 (Reachable.init deal0 Player.A (by decide)) (by decide),
   by decide, by decide⟩
